import Mathlib

/-!
# Verification of the Windows local-time resolution core (src/offset/local/windows.rs)

Shallow embedding of `windows.rs`: machine integers are modelled as `Int`;
every explicit Rust `as` cast is modelled by reduction modulo the target
width (casts are defined, wrapping conversions in Rust), while in-type
arithmetic is kept exact over `Int` (Rust treats arithmetic overflow as a
program error).  Panicking paths (`unwrap`, `assert_eq!`, the `call!`
macro) are modelled by `Option.none`.

The Win32 time services (`FileTimeToSystemTime`, `SystemTimeToFileTime`,
`SystemTimeToTzSpecificLocalTime`, `TzSpecificLocalTimeToSystemTime`,
`GetTimeZoneInformation`) are not part of this repository; they are
modelled from the spec (§4.2/§6): exact proleptic-Gregorian calendar
arithmetic between broken-down fields and linear time, with the machine
zone state given by a standard bias, a DST bias (minutes) and a flag
saying whether DST currently applies.
-/

/-! ## Machine-integer casts -/

/-- Rust `as u16` on an integer value: reduction modulo 2^16. -/
def toU16 (x : Int) : Int := x % 65536

/-- Rust `as u32` on an integer value: reduction modulo 2^32. -/
def toU32 (x : Int) : Int := x % 4294967296

/-- Rust `as u64` on an integer value: reduction modulo 2^64. -/
def toU64 (x : Int) : Int := x % 18446744073709551616

/-- Rust `as i64` on an integer value: centred reduction modulo 2^64. -/
def toI64 (x : Int) : Int :=
  (x + 9223372036854775808) % 18446744073709551616 - 9223372036854775808

/-- Rust `as i32` on an integer value: centred reduction modulo 2^32. -/
def toI32 (x : Int) : Int := (x + 2147483648) % 4294967296 - 2147483648

/-! ## Data model -/

/-- `time::Tm`-style broken-down time (all fields are Rust `i32`). -/
structure Tm where
  tm_sec : Int
  tm_min : Int
  tm_hour : Int
  tm_mday : Int
  tm_mon : Int
  tm_year : Int
  tm_wday : Int
  tm_yday : Int
  tm_isdst : Int
  tm_utcoff : Int
  tm_nsec : Int
deriving DecidableEq

/-- A seconds + nanoseconds pair on the Unix time line. -/
structure Timespec where
  sec : Int
  nsec : Int
deriving DecidableEq

/-- Win32 `SYSTEMTIME` (all fields are `u16`; constructions keep them reduced). -/
structure SYSTEMTIME where
  wYear : Int
  wMonth : Int
  wDayOfWeek : Int
  wDay : Int
  wHour : Int
  wMinute : Int
  wSecond : Int
  wMilliseconds : Int
deriving DecidableEq

/-- Win32 `FILETIME`: a 64-bit tick count split into two `u32` halves. -/
structure FILETIME where
  dwLowDateTime : Int
  dwHighDateTime : Int
deriving DecidableEq

/-- The library's ambiguity result type (`chrono::LocalResult`). -/
inductive LocalResult (α : Type) where
  | None : LocalResult α
  | Single : α → LocalResult α
  | Ambiguous : α → α → LocalResult α
deriving DecidableEq

/-- Model of `DateTime<Local>`: the naive-UTC timestamp in seconds since the
Unix epoch, the (possibly leap-representing) nanosecond field, and the
attached fixed offset in seconds east of UTC. -/
structure DT where
  secs : Int
  nano : Int
  offset : Int
deriving DecidableEq

/-- Model of `NaiveDateTime`: accessor fields (month is 1-based). -/
structure NaiveDT where
  year : Int
  month : Int
  day : Int
  hour : Int
  minute : Int
  second : Int
  nanosecond : Int
deriving DecidableEq

/-- `NaiveDateTime::month0`: 0-based month. -/
def NaiveDT.month0 (d : NaiveDT) : Int := d.month - 1

/-- Modelled from the spec: the machine's current zone rule (§3, §4.2) as
returned by `GetTimeZoneInformation` (biases in minutes), together with
whether daylight saving currently applies. -/
structure HostZone where
  Bias : Int
  StandardBias : Int
  DaylightBias : Int
  dstActive : Bool
deriving DecidableEq

/-- Modelled from the spec: the zone's current total offset in seconds east
of UTC (Windows biases are minutes west, hence the sign). -/
def HostZone.offSecs (hz : HostZone) : Int :=
  -60 * (hz.Bias + if hz.dstActive then hz.DaylightBias else hz.StandardBias)

/-! ## Host calendar arithmetic, modelled from the spec

The spec (§6) requires the host's `calendar_to_linear` / `linear_to_calendar`
to be exact mutually inverse proleptic-Gregorian conversions.  Day numbers
count from 1970-01-01.  `civilOfDays` decomposes a day number by capped
divisions (era of 146097 days, then century / quadrennium / year inside the
era, in the March-based reckoning), which makes the inverse proofs purely
linear-arithmetic. -/

/-- Modelled from the spec: days from 1970-01-01 to the Gregorian date
`y-m-d` (proleptic, exact for every integer input). -/
def daysOfCivil (y m d : Int) : Int :=
  365 * (if m ≤ 2 then y - 1 else y) + (if m ≤ 2 then y - 1 else y) / 4
    - (if m ≤ 2 then y - 1 else y) / 100 + (if m ≤ 2 then y - 1 else y) / 400
    + ((153 * (if m ≤ 2 then m + 9 else m - 3) + 2) / 5 + d - 1) - 719468

/-- Era index (intervals of 146097 days) of a shifted day number. -/
def eraOf (z : Int) : Int := (z + 719468) / 146097

/-- Day within the era, in `[0, 146096]`. -/
def doeOf (z : Int) : Int := (z + 719468) % 146097

/-- Century within the era (capped at 3). -/
def cOf (z : Int) : Int := if doeOf z / 36524 ≤ 3 then doeOf z / 36524 else 3

/-- Day within the century. -/
def rOf (z : Int) : Int := doeOf z - 36524 * cOf z

/-- Quadrennium within the century (capped at 24). -/
def qOf (z : Int) : Int := if rOf z / 1461 ≤ 24 then rOf z / 1461 else 24

/-- Day within the quadrennium. -/
def sOf (z : Int) : Int := rOf z - 1461 * qOf z

/-- Year within the quadrennium (capped at 3). -/
def uOf (z : Int) : Int := if sOf z / 365 ≤ 3 then sOf z / 365 else 3

/-- Day of the (March-based) year. -/
def doyOf (z : Int) : Int := sOf z - 365 * uOf z

/-- Year of the era, in `[0, 399]`. -/
def yoeOf (z : Int) : Int := 100 * cOf z + 4 * qOf z + uOf z

/-- Shifted month (March = 0), recovered from the day of year. -/
def mpOf (z : Int) : Int := (5 * doyOf z + 2) / 153

/-- Day of the month. -/
def dayOf (z : Int) : Int := doyOf z - (153 * mpOf z + 2) / 5 + 1

/-- Civil month (1-based). -/
def monOf (z : Int) : Int := if mpOf z ≤ 9 then mpOf z + 3 else mpOf z - 9

/-- Shifted (March-based) year. -/
def syOf (z : Int) : Int := 400 * eraOf z + yoeOf z

/-- Civil year. -/
def yearOf (z : Int) : Int := if monOf z ≤ 2 then syOf z + 1 else syOf z

/-- Modelled from the spec: the Gregorian date `(y, m, d)` of a day number
(inverse of `daysOfCivil`). -/
def civilOfDays (z : Int) : Int × Int × Int := (yearOf z, monOf z, dayOf z)

/-- Modelled from the spec: seconds since the Unix epoch of a broken-down
UTC calendar value. -/
def sysToSecs (sys : SYSTEMTIME) : Int :=
  daysOfCivil sys.wYear sys.wMonth sys.wDay * 86400
    + sys.wHour * 3600 + sys.wMinute * 60 + sys.wSecond

/-- Modelled from the spec: the broken-down UTC calendar value of a count of
seconds since the Unix epoch (inverse of `sysToSecs`). -/
def secsToSys (z : Int) : SYSTEMTIME :=
  { wYear := yearOf (z / 86400), wMonth := monOf (z / 86400), wDay := dayOf (z / 86400),
    wDayOfWeek := (z / 86400 + 4) % 7,
    wHour := z % 86400 / 3600, wMinute := z % 86400 / 60 % 60, wSecond := z % 86400 % 60,
    wMilliseconds := 0 }

/-! ## Source embedding: the FILETIME bridge -/

def HECTONANOSECS_IN_SEC : Int := 10000000

def HECTONANOSEC_TO_UNIX_EPOCH : Int := 11644473600 * HECTONANOSECS_IN_SEC

/-- `time_to_file_time`: Unix seconds to a `FILETIME` (`as u64` wraps, the
`>> 32` / `as u32` pair splits the tick count). -/
def time_to_file_time (sec : Int) : FILETIME :=
  { dwLowDateTime := toU32 (toU64 (sec * HECTONANOSECS_IN_SEC + HECTONANOSEC_TO_UNIX_EPOCH)),
    dwHighDateTime :=
      toU32 (toU64 (sec * HECTONANOSECS_IN_SEC + HECTONANOSEC_TO_UNIX_EPOCH) / 4294967296) }

/-- `file_time_as_u64`: `(hi as u64) << 32 | (lo as u64)`; the bit ranges are
disjoint, so the `|` is addition. -/
def file_time_as_u64 (ft : FILETIME) : Int :=
  toU32 ft.dwHighDateTime * 4294967296 + toU32 ft.dwLowDateTime

/-- `file_time_to_unix_seconds` (`as i64` is a centred wrap; Rust `/` on
`i64` truncates towards zero, hence `Int.tdiv`). -/
def file_time_to_unix_seconds (ft : FILETIME) : Int :=
  Int.tdiv (toI64 (file_time_as_u64 ft) - HECTONANOSEC_TO_UNIX_EPOCH) HECTONANOSECS_IN_SEC

/-! ## Source embedding: SYSTEMTIME glue -/

/-- Modelled from the spec: `SystemTimeToFileTime` (host calendar → ticks). -/
def SystemTimeToFileTimeW (sys : SYSTEMTIME) : FILETIME :=
  time_to_file_time (sysToSecs sys)

/-- Modelled from the spec: `FileTimeToSystemTime` (ticks → host calendar). -/
def FileTimeToSystemTimeW (ft : FILETIME) : SYSTEMTIME :=
  secsToSys (file_time_to_unix_seconds ft)

/-- Modelled from the spec: `SystemTimeToTzSpecificLocalTime` applies the
machine zone's current total offset. -/
def SystemTimeToTzSpecificLocalTimeW (hz : HostZone) (utc : SYSTEMTIME) : SYSTEMTIME :=
  secsToSys (sysToSecs utc + hz.offSecs)

/-- Modelled from the spec: `TzSpecificLocalTimeToSystemTime` removes the
machine zone's current total offset. -/
def TzSpecificLocalTimeToSystemTimeW (hz : HostZone) (loc : SYSTEMTIME) : SYSTEMTIME :=
  secsToSys (sysToSecs loc - hz.offSecs)

/-- `system_time_to_file_time`: thin wrapper over the host call. -/
def system_time_to_file_time (sys : SYSTEMTIME) : FILETIME :=
  SystemTimeToFileTimeW sys

/-- `tm_to_system_time`: every field is stored through an `as u16` cast;
`wMilliseconds` keeps the zero initialisation. -/
def tm_to_system_time (tm : Tm) : SYSTEMTIME :=
  { wSecond := toU16 tm.tm_sec, wMinute := toU16 tm.tm_min, wHour := toU16 tm.tm_hour,
    wDay := toU16 tm.tm_mday, wDayOfWeek := toU16 tm.tm_wday,
    wMonth := toU16 (tm.tm_mon + 1), wYear := toU16 (tm.tm_year + 1900),
    wMilliseconds := 0 }

/-- The nested `yday` helper of `system_time_to_tm`.  Rust `%` and `/` on
`i32` truncate towards zero; a truncated remainder is zero exactly when the
Euclidean one is, so the leap test keeps `%`, and `month / 2` is `Int.tdiv`. -/
def yday (year month day : Int) : Int :=
  (month - 1) * 30 + Int.tdiv month 2 + (day - 1)
    - (if 2 < month then (if year % 4 = 0 then 1 else 2) else 0)
    + (if 7 < month then 1 else 0)

/-- `system_time_to_tm`: reads the `u16` fields back into `i32`s; the
`wMonth - 1` and `wYear - 1900` subtractions happen in `u16` and wrap. -/
def system_time_to_tm (sys : SYSTEMTIME) (tm : Tm) : Tm :=
  let tm1 : Tm := { tm with
    tm_sec := toU16 sys.wSecond,
    tm_min := toU16 sys.wMinute,
    tm_hour := toU16 sys.wHour,
    tm_mday := toU16 sys.wDay,
    tm_wday := toU16 sys.wDayOfWeek,
    tm_mon := toU16 (sys.wMonth - 1),
    tm_year := toU16 (sys.wYear - 1900) }
  { tm1 with tm_yday := yday tm1.tm_year (tm1.tm_mon + 1) tm1.tm_mday }

/-! ## Source embedding: `time_to_local_tm` and friends -/

/-- The local `SYSTEMTIME` computed inside `time_to_local_tm`. -/
def localSys (hz : HostZone) (sec : Int) : SYSTEMTIME :=
  SystemTimeToTzSpecificLocalTimeW hz (FileTimeToSystemTimeW (time_to_file_time sec))

/-- `local_sec` inside `time_to_local_tm`: the local broken-down encoding
projected back to an instant. -/
def localSec (hz : HostZone) (sec : Int) : Int :=
  file_time_to_unix_seconds (system_time_to_file_time (localSys hz sec))

/-- `time_to_local_tm`: fills the broken-down fields from the local
`SYSTEMTIME`, then sets `tm_utcoff = (local_sec - sec) as i32` and derives
`tm_isdst` by comparing it with `-60 * (Bias + StandardBias)`. -/
def time_to_local_tm (hz : HostZone) (sec : Int) (tm : Tm) : Tm :=
  let tm1 := system_time_to_tm (localSys hz sec) tm
  let off := toI32 (localSec hz sec - sec)
  { tm1 with tm_utcoff := off,
             tm_isdst := if off = -60 * (hz.Bias + hz.StandardBias) then 0 else 1 }

/-- `Timespec::local`: zero-initialise a `Tm`, fill it via
`time_to_local_tm`, then copy the nanoseconds over. -/
def Timespec.localTm (ts : Timespec) (hz : HostZone) : Tm :=
  let tm0 : Tm := ⟨0, 0, 0, 0, 0, 0, 0, 0, 0, 0, 0⟩
  let tm1 := time_to_local_tm hz ts.sec tm0
  { tm1 with tm_nsec := ts.nsec }

/-- `utc_tm_to_time`: interpret a `Tm` as UTC and return Unix seconds. -/
def utc_tm_to_time (tm : Tm) : Int :=
  file_time_to_unix_seconds (SystemTimeToFileTimeW (tm_to_system_time tm))

/-- `local_tm_to_time`: interpret a `Tm` as local wall time and return Unix
seconds. -/
def local_tm_to_time (hz : HostZone) (tm : Tm) : Int :=
  file_time_to_unix_seconds
    (SystemTimeToFileTimeW (TzSpecificLocalTimeToSystemTimeW hz (tm_to_system_time tm)))

/-! ## Source embedding: the Result Assembler -/

/-- Gregorian leap year, as validated by `NaiveDate::from_ymd_opt`. -/
def isLeapG (y : Int) : Prop := y % 4 = 0 ∧ (y % 100 ≠ 0 ∨ y % 400 = 0)

instance (y : Int) : Decidable (isLeapG y) := by unfold isLeapG; infer_instance

/-- Length of month `m` (1-based) of Gregorian year `y`. -/
def daysInMonth (y m : Int) : Int :=
  if m = 2 then (if isLeapG y then 29 else 28)
  else if m = 4 ∨ m = 6 ∨ m = 9 ∨ m = 11 then 30 else 31

/-- Validity test of `NaiveDate::from_ymd_opt` (chrono's year range is
`-262144 ..= 262143`). -/
def DateOk (y m d : Int) : Prop :=
  -262144 ≤ y ∧ y ≤ 262143 ∧ 1 ≤ m ∧ m ≤ 12 ∧ 1 ≤ d ∧ d ≤ daysInMonth y m

instance (y m d : Int) : Decidable (DateOk y m d) := by unfold DateOk; infer_instance

/-- Validity test of `NaiveTime::from_hms_nano_opt` (nanoseconds up to but
excluding 2·10⁹; values ≥ 10⁹ represent a leap second). -/
def TimeOk (h mi s nano : Int) : Prop :=
  0 ≤ h ∧ h < 24 ∧ 0 ≤ mi ∧ mi < 60 ∧ 0 ≤ s ∧ s < 60 ∧ 0 ≤ nano ∧ nano < 2000000000

instance (h mi s nano : Int) : Decidable (TimeOk h mi s nano) := by
  unfold TimeOk; infer_instance

/-- The leap-second clamp at the top of `tm_to_datetime`. -/
def leapClamp (tm : Tm) : Tm :=
  if 60 ≤ tm.tm_sec then
    { tm with tm_nsec := tm.tm_nsec + (tm.tm_sec - 59) * 1000000000, tm_sec := 59 }
  else tm

/-- The rest of `tm_to_datetime` after the clamp: `from_ymd_opt(..).unwrap()`
(a panic, `none`, on an invalid date), `from_hms_nano_opt` (`LocalResult::None`
on invalid time of day), `FixedOffset::east_opt(..).unwrap()` (a panic on an
out-of-range offset), then `DateTime::from_utc(date.and_time(time) - offset,
offset)`.  The `as u32` casts on the month/day/time fields are explicit in the
source. -/
def assembleClamped (tm : Tm) : Option (LocalResult DT) :=
  if DateOk (tm.tm_year + 1900) (toU32 tm.tm_mon + 1) (toU32 tm.tm_mday) then
    if TimeOk (toU32 tm.tm_hour) (toU32 tm.tm_min) (toU32 tm.tm_sec) (toU32 tm.tm_nsec) then
      if -86400 < tm.tm_utcoff ∧ tm.tm_utcoff < 86400 then
        some (LocalResult.Single
          { secs := daysOfCivil (tm.tm_year + 1900) (toU32 tm.tm_mon + 1) (toU32 tm.tm_mday) * 86400
                      + toU32 tm.tm_hour * 3600 + toU32 tm.tm_min * 60 + toU32 tm.tm_sec
                      - tm.tm_utcoff,
            nano := toU32 tm.tm_nsec,
            offset := tm.tm_utcoff })
      else none
    else some LocalResult.None
  else none

/-- `tm_to_datetime`: leap-second clamp first, then validation and assembly. -/
def tm_to_datetime (tm : Tm) : Option (LocalResult DT) :=
  assembleClamped (leapClamp tm)

/-! ## Source embedding: `naive_to_local` -/

/-- The `Tm` literal built at the top of `naive_to_local`. -/
def resolveTm (d : NaiveDT) (loc : Bool) : Tm :=
  { tm_sec := d.second, tm_min := d.minute, tm_hour := d.hour, tm_mday := d.day,
    tm_mon := d.month0, tm_year := d.year - 1900, tm_wday := 0, tm_yday := 0,
    tm_isdst := -1, tm_utcoff := if loc then 1 else 0, tm_nsec := 0 }

/-- The `Timespec` built in `naive_to_local` (UTC path when `loc` is false,
local path when true; `nsec` is copied from the `Tm`). -/
def resolveSpec (hz : HostZone) (d : NaiveDT) (loc : Bool) : Timespec :=
  { sec := if loc then local_tm_to_time hz (resolveTm d loc)
           else utc_tm_to_time (resolveTm d loc),
    nsec := (resolveTm d loc).tm_nsec }

/-- The re-projected `Tm` at the `assert_eq!(tm.tm_nsec, 0)` checkpoint. -/
def checkpointTm (hz : HostZone) (d : NaiveDT) (loc : Bool) : Tm :=
  (resolveSpec hz d loc).localTm hz

/-- `naive_to_local`: build the `Tm`, resolve to seconds, re-project, check
the nanosecond assertion (a failing `assert_eq!` is a panic, `none`),
overwrite the nanosecond field with the caller's value, and assemble. -/
def naive_to_local (hz : HostZone) (d : NaiveDT) (loc : Bool) : Option (LocalResult DT) :=
  if (checkpointTm hz d loc).tm_nsec = 0 then
    tm_to_datetime { checkpointTm hz d loc with tm_nsec := d.nanosecond }
  else none

/-- Projecting a produced timestamp's instant (seconds + nanoseconds) back
through the instant-to-local mapping, as in the round-trip property. -/
def projectLocal (hz : HostZone) (dt : DT) : Tm :=
  Timespec.localTm { sec := dt.secs, nsec := dt.nano } hz

/-- Validity of a `NaiveDateTime` input (its type invariant in chrono). -/
def NaiveOk (d : NaiveDT) : Prop :=
  DateOk d.year d.month d.day ∧ TimeOk d.hour d.minute d.second d.nanosecond

instance (d : NaiveDT) : Decidable (NaiveOk d) := by unfold NaiveOk; infer_instance

/-- The claimed round trip: resolving with `interpret_as_local = true`
succeeds with a single instant whose projection back through the local
mapping reproduces all calendar fields of `d`, including nanoseconds. -/
def fieldsMatch (tm : Tm) (d : NaiveDT) : Prop :=
  tm.tm_year = d.year - 1900 ∧ tm.tm_mon = d.month0 ∧ tm.tm_mday = d.day ∧
  tm.tm_hour = d.hour ∧ tm.tm_min = d.minute ∧ tm.tm_sec = d.second ∧
  tm.tm_nsec = d.nanosecond

instance (tm : Tm) (d : NaiveDT) : Decidable (fieldsMatch tm d) := by
  unfold fieldsMatch; infer_instance

/-- Boolean round-trip check used to state the round-trip claim. -/
def roundTripsB (hz : HostZone) (d : NaiveDT) : Bool :=
  match naive_to_local hz d true with
  | some (LocalResult.Single dt) => decide (fieldsMatch (projectLocal hz dt) d)
  | _ => false

/-- The day-of-year closed form as the spec words it, reading "a leap year"
as a true Gregorian leap year of the civil year `year + 1900` (the `year`
argument is years since 1900): `(month-1)*30 + month/2 + (day-1) -
leap_adjustment + july_adjustment`, `leap_adjustment` 1 for a leap year past
February, 2 for a non-leap year past February, 0 otherwise, and
`july_adjustment` 1 exactly when `month > 7`. -/
def ydaySpecForm (year month day : Int) : Int :=
  (month - 1) * 30 + Int.tdiv month 2 + (day - 1)
    - (if 2 < month then (if isLeapG (year + 1900) then 1 else 2) else 0)
    + (if 7 < month then 1 else 0)

/-- The day-of-year closed form with the leap adjustment the code actually
uses: 1 when `year` (years since 1900) is divisible by 4 and the month is
past February, 2 past February otherwise, 0 up to February. -/
def ydayDiv4Form (year month day : Int) : Int :=
  (month - 1) * 30 + Int.tdiv month 2 + (day - 1)
    - (if 2 < month then (if 4 ∣ year then 1 else 2) else 0)
    + (if 7 < month then 1 else 0)

/-! # Lemmas

## The calendar bijection -/

theorem doeOf_bounds (z : Int) :
    0 ≤ doeOf z ∧ doeOf z ≤ 146096 ∧ z + 719468 = 146097 * eraOf z + doeOf z := by
  unfold doeOf eraOf; omega

theorem cOf_spec (z : Int) :
    0 ≤ cOf z ∧ cOf z ≤ 3 ∧ 0 ≤ rOf z ∧ rOf z ≤ 36524 ∧ (rOf z = 36524 → cOf z = 3) := by
  have h := doeOf_bounds z
  unfold rOf cOf
  omega

theorem qOf_spec (z : Int) :
    0 ≤ qOf z ∧ qOf z ≤ 24 ∧ 0 ≤ sOf z ∧ sOf z ≤ 1460 ∧
    (sOf z = 1460 ∧ qOf z = 24 → cOf z = 3) := by
  have h := cOf_spec z
  unfold sOf qOf
  omega

theorem uOf_spec (z : Int) :
    0 ≤ uOf z ∧ uOf z ≤ 3 ∧ 0 ≤ doyOf z ∧ doyOf z ≤ 365 ∧
    (doyOf z = 365 → uOf z = 3 ∧ (qOf z = 24 → cOf z = 3)) := by
  have h := qOf_spec z
  unfold doyOf uOf
  omega

theorem decompOf_identity (z : Int) :
    doeOf z = 36524 * cOf z + 1461 * qOf z + 365 * uOf z + doyOf z := by
  unfold doyOf sOf rOf
  omega

theorem ysOf_identity (z : Int) :
    365 * yoeOf z + yoeOf z / 4 - yoeOf z / 100 =
      36524 * cOf z + 1461 * qOf z + 365 * uOf z := by
  have h1 := cOf_spec z
  have h2 := qOf_spec z
  have h3 := uOf_spec z
  unfold yoeOf
  omega

theorem yoeOf_bounds (z : Int) : 0 ≤ yoeOf z ∧ yoeOf z ≤ 399 := by
  have h1 := cOf_spec z
  have h2 := qOf_spec z
  have h3 := uOf_spec z
  unfold yoeOf
  omega

theorem mpOf_bounds (z : Int) : 0 ≤ mpOf z ∧ mpOf z ≤ 11 := by
  have h := uOf_spec z
  unfold mpOf
  omega

/-- Left inverse: recomposing the date produced by `civilOfDays` gives the
day number back, for every integer day number. -/
theorem daysOfCivil_civilOfDays (z : Int) :
    daysOfCivil (yearOf z) (monOf z) (dayOf z) = z := by
  have hdoe := doeOf_bounds z
  have hdec := decompOf_identity z
  have hys := ysOf_identity z
  have hyoe := yoeOf_bounds z
  have hmp := mpOf_bounds z
  unfold daysOfCivil yearOf monOf dayOf syOf
  rcases le_or_lt (mpOf z) 9 with h9 | h9
  · have hgt : ¬ (mpOf z + 3 ≤ 2) := by omega
    simp only [if_pos h9, if_neg hgt]
    omega
  · have hle : mpOf z - 9 ≤ 2 := by omega
    have h9' : ¬ (mpOf z ≤ 9) := by omega
    simp only [if_neg h9', if_pos hle]
    omega

theorem dim_facts (y m d : Int) (hdm : d ≤ daysInMonth y m) :
    (m = 2 → d ≤ 29 ∧ (d = 29 → isLeapG y)) ∧
    ((m = 4 ∨ m = 6 ∨ m = 9 ∨ m = 11) → d ≤ 30) ∧ d ≤ 31 := by
  unfold daysInMonth at hdm
  by_cases hL : isLeapG y
  · simp only [if_pos hL] at hdm
    split_ifs at hdm <;>
      exact ⟨fun h2 => ⟨by omega, fun _ => hL⟩, fun h4 => by omega, by omega⟩
  · simp only [if_neg hL] at hdm
    split_ifs at hdm <;>
      exact ⟨fun h2 => ⟨by omega, fun h29 => (by omega : False).elim⟩,
             fun h4 => by omega, by omega⟩

theorem monthLayer (m d mp doy : Int) (hm1 : 1 ≤ m) (hm2 : m ≤ 12) (hd1 : 1 ≤ d)
    (hdm2 : m = 2 → d ≤ 29) (hdm30 : (m = 4 ∨ m = 6 ∨ m = 9 ∨ m = 11) → d ≤ 30)
    (hdm31 : d ≤ 31)
    (hmp : mp = if m ≤ 2 then m + 9 else m - 3)
    (hdoy : doy = (153 * mp + 2) / 5 + d - 1) :
    0 ≤ mp ∧ mp ≤ 11 ∧ (5 * doy + 2) / 153 = mp ∧ doy - (153 * mp + 2) / 5 + 1 = d ∧
    (if mp ≤ 9 then mp + 3 else mp - 9) = m ∧
    0 ≤ doy ∧ doy ≤ 365 ∧ (364 < doy → m = 2 ∧ d = 29) := by
  interval_cases m <;> omega

theorem syLink (sy era yoe z doy : Int) (hera : era = sy / 400) (hyoe : yoe = sy % 400)
    (hz : z = 365 * sy + sy / 4 - sy / 100 + sy / 400 + doy - 719468) :
    z + 719468 = 146097 * era + (365 * yoe + yoe / 4 - yoe / 100 + doy) ∧
    0 ≤ yoe ∧ yoe ≤ 399 ∧ sy = 400 * era + yoe := by
  omega

theorem ysSplit (yoe c q u : Int) (h : 0 ≤ yoe ∧ yoe ≤ 399)
    (hc : c = yoe / 100) (hq : q = yoe % 100 / 4) (hu : u = yoe % 4) :
    365 * yoe + yoe / 4 - yoe / 100 = 36524 * c + 1461 * q + 365 * u ∧
    0 ≤ c ∧ c ≤ 3 ∧ 0 ≤ q ∧ q ≤ 24 ∧ 0 ≤ u ∧ u ≤ 3 ∧ yoe = 100 * c + 4 * q + u := by
  omega

theorem eraRecompose (era yoe doy z : Int) (hyoe : 0 ≤ yoe ∧ yoe ≤ 399)
    (hdoy : 0 ≤ doy ∧ doy ≤ 365)
    (hz : z + 719468 = 146097 * era + (365 * yoe + yoe / 4 - yoe / 100 + doy)) :
    eraOf z = era ∧ doeOf z = 365 * yoe + yoe / 4 - yoe / 100 + doy := by
  unfold eraOf doeOf
  omega

theorem decomposeRecompose (c q u doy z : Int) (hc : 0 ≤ c ∧ c ≤ 3) (hq : 0 ≤ q ∧ q ≤ 24)
    (hu : 0 ≤ u ∧ u ≤ 3) (hdoy : 0 ≤ doy)
    (hval : doy ≤ 364 ∨ (u = 3 ∧ (q ≠ 24 ∨ c = 3) ∧ doy ≤ 365))
    (hdoe : doeOf z = 36524 * c + 1461 * q + 365 * u + doy) :
    cOf z = c ∧ qOf z = q ∧ uOf z = u ∧ doyOf z = doy := by
  have hcr : cOf z = c := by
    unfold cOf
    omega
  have hrr : rOf z = 1461 * q + 365 * u + doy := by
    unfold rOf
    omega
  have hqr : qOf z = q := by
    unfold qOf
    omega
  have hsr : sOf z = 365 * u + doy := by
    unfold sOf
    omega
  have hur : uOf z = u := by
    unfold uOf
    omega
  have hdoyr : doyOf z = doy := by
    unfold doyOf
    omega
  exact ⟨hcr, hqr, hur, hdoyr⟩

theorem civil_exact_core (y m d sy mp doy era yoe c q u z : Int)
    (hm1 : 1 ≤ m) (hm2 : m ≤ 12) (hd1 : 1 ≤ d)
    (hdm : (m = 2 → d ≤ 29 ∧ (d = 29 → isLeapG y)) ∧
           ((m = 4 ∨ m = 6 ∨ m = 9 ∨ m = 11) → d ≤ 30) ∧ d ≤ 31)
    (hsy : sy = if m ≤ 2 then y - 1 else y)
    (hmp : mp = if m ≤ 2 then m + 9 else m - 3)
    (hdoy : doy = (153 * mp + 2) / 5 + d - 1)
    (hera : era = sy / 400) (hyoe : yoe = sy % 400)
    (hc : c = yoe / 100) (hq : q = yoe % 100 / 4) (hu : u = yoe % 4)
    (hz : z = 365 * sy + sy / 4 - sy / 100 + sy / 400 + doy - 719468) :
    yearOf z = y ∧ monOf z = m ∧ dayOf z = d := by
  obtain ⟨hmp0, hmp11, hmpdoy, hdrec, hmonmap, hdoy0, hdoy365, hedge⟩ :=
    monthLayer m d mp doy hm1 hm2 hd1 (fun h2 => (hdm.1 h2).1) hdm.2.1 hdm.2.2 hmp hdoy
  obtain ⟨hzl, hyoe0, hyoe399, hsyv⟩ := syLink sy era yoe z doy hera hyoe hz
  obtain ⟨hys, hc0, hc3, hq0, hq24, hu0, hu3, hcqu⟩ :=
    ysSplit yoe c q u ⟨hyoe0, hyoe399⟩ hc hq hu
  clear hc hq hu hera hz
  have hval : doy ≤ 364 ∨ (u = 3 ∧ (q ≠ 24 ∨ c = 3) ∧ doy ≤ 365) := by
    rcases le_or_lt doy 364 with h | h
    · exact Or.inl h
    · obtain ⟨h2, h29⟩ := hedge h
      have hL := (hdm.1 h2).2 h29
      unfold isLeapG at hL
      right
      refine ⟨by omega, by omega, hdoy365⟩
  obtain ⟨hEera, hEdoe⟩ := eraRecompose era yoe doy z ⟨hyoe0, hyoe399⟩ ⟨hdoy0, hdoy365⟩ hzl
  have hdoe' : doeOf z = 36524 * c + 1461 * q + 365 * u + doy := by
    rw [hEdoe, hys]
  obtain ⟨hcr, hqr, hur, hdoyr⟩ :=
    decomposeRecompose c q u doy z ⟨hc0, hc3⟩ ⟨hq0, hq24⟩ ⟨hu0, hu3⟩ hdoy0 hval hdoe'
  have hyoer : yoeOf z = yoe := by
    unfold yoeOf
    omega
  have hmpr : mpOf z = mp := by
    unfold mpOf
    omega
  have hdayr : dayOf z = d := by
    unfold dayOf
    omega
  have hmonr : monOf z = m := by
    unfold monOf
    omega
  have hyearr : yearOf z = y := by
    unfold yearOf syOf
    omega
  exact ⟨hyearr, hmonr, hdayr⟩

/-- Right inverse: `civilOfDays` recovers every valid Gregorian date from its
day number. -/
theorem civilOfDays_daysOfCivil (y m d : Int) (hm1 : 1 ≤ m) (hm2 : m ≤ 12) (hd1 : 1 ≤ d)
    (hdm : d ≤ daysInMonth y m) :
    yearOf (daysOfCivil y m d) = y ∧ monOf (daysOfCivil y m d) = m ∧
    dayOf (daysOfCivil y m d) = d := by
  exact civil_exact_core y m d (if m ≤ 2 then y - 1 else y) (if m ≤ 2 then m + 9 else m - 3)
    ((153 * (if m ≤ 2 then m + 9 else m - 3) + 2) / 5 + d - 1)
    ((if m ≤ 2 then y - 1 else y) / 400) ((if m ≤ 2 then y - 1 else y) % 400)
    ((if m ≤ 2 then y - 1 else y) % 400 / 100) ((if m ≤ 2 then y - 1 else y) % 400 % 100 / 4)
    ((if m ≤ 2 then y - 1 else y) % 400 % 4)
    (daysOfCivil y m d) hm1 hm2 hd1 (dim_facts y m d hdm) rfl rfl rfl rfl rfl rfl rfl rfl
    (by unfold daysOfCivil; ring)

/-! ## The seconds layer and the tick bridge -/

theorem sysToSecs_secsToSys (z : Int) : sysToSecs (secsToSys z) = z := by
  simp only [sysToSecs, secsToSys]
  rw [daysOfCivil_civilOfDays (z / 86400)]
  omega

theorem secsToSys_fields (y m d hh mi ss S : Int) (hm1 : 1 ≤ m) (hm2 : m ≤ 12) (hd1 : 1 ≤ d)
    (hdm : d ≤ daysInMonth y m) (hhh : 0 ≤ hh ∧ hh < 24) (hmi : 0 ≤ mi ∧ mi < 60)
    (hss : 0 ≤ ss ∧ ss < 60)
    (hS : S = daysOfCivil y m d * 86400 + hh * 3600 + mi * 60 + ss) :
    (secsToSys S).wYear = y ∧ (secsToSys S).wMonth = m ∧ (secsToSys S).wDay = d ∧
    (secsToSys S).wHour = hh ∧ (secsToSys S).wMinute = mi ∧ (secsToSys S).wSecond = ss ∧
    (secsToSys S).wMilliseconds = 0 := by
  have hdays : S / 86400 = daysOfCivil y m d ∧ S % 86400 = hh * 3600 + mi * 60 + ss := by
    omega
  have hc := civilOfDays_daysOfCivil y m d hm1 hm2 hd1 hdm
  simp only [secsToSys]
  rw [hdays.1, hdays.2]
  exact ⟨hc.1, hc.2.1, hc.2.2, by omega, by omega, by omega, trivial⟩

theorem daysOfCivil_range (y m d : Int) (hy : 1900 ≤ y ∧ y ≤ 30000) (hm : 1 ≤ m ∧ m ≤ 12)
    (hd : 1 ≤ d ∧ d ≤ 31) :
    -25568 ≤ daysOfCivil y m d ∧ daysOfCivil y m d ≤ 10249000 := by
  unfold daysOfCivil
  rcases le_or_lt m 2 with h | h
  · simp only [if_pos h]
    omega
  · have h' : ¬ (m ≤ 2) := by omega
    simp only [if_neg h']
    omega

/-- The epoch/granularity bridge is exact on the representable range. -/
theorem bridge_exact (sec : Int)
    (h0 : 0 ≤ sec * 10000000 + 116444736000000000)
    (h1 : sec * 10000000 + 116444736000000000 < 9223372036854775808) :
    file_time_to_unix_seconds (time_to_file_time sec) = sec := by
  have ha : toU64 (sec * HECTONANOSECS_IN_SEC + HECTONANOSEC_TO_UNIX_EPOCH) =
      sec * 10000000 + 116444736000000000 := by
    simp only [toU64, HECTONANOSEC_TO_UNIX_EPOCH, HECTONANOSECS_IN_SEC]
    omega
  have key : file_time_as_u64 (time_to_file_time sec) =
      sec * 10000000 + 116444736000000000 := by
    simp only [file_time_as_u64, time_to_file_time, ha]
    unfold toU32
    generalize hE : sec * 10000000 + 116444736000000000 = E at h0 h1 ⊢
    have e1 : E / 4294967296 % 4294967296 = E / 4294967296 :=
      Int.emod_eq_of_lt (by omega) (by omega)
    rw [e1]
    omega
  unfold file_time_to_unix_seconds
  rw [key]
  have h2 : toI64 (sec * 10000000 + 116444736000000000) =
      sec * 10000000 + 116444736000000000 := by
    unfold toI64
    omega
  rw [h2]
  have h3 : sec * 10000000 + 116444736000000000 - HECTONANOSEC_TO_UNIX_EPOCH =
      sec * 10000000 := by
    unfold HECTONANOSEC_TO_UNIX_EPOCH HECTONANOSECS_IN_SEC
    omega
  rw [h3]
  show Int.tdiv (sec * 10000000) HECTONANOSECS_IN_SEC = sec
  unfold HECTONANOSECS_IN_SEC
  exact Int.mul_tdiv_cancel sec (by norm_num)

/-! ## Assembler evaluation lemmas -/

theorem leapClamp_inv (tm : Tm) :
    (leapClamp tm).tm_year = tm.tm_year ∧ (leapClamp tm).tm_mon = tm.tm_mon ∧
    (leapClamp tm).tm_mday = tm.tm_mday ∧ (leapClamp tm).tm_hour = tm.tm_hour ∧
    (leapClamp tm).tm_min = tm.tm_min ∧ (leapClamp tm).tm_utcoff = tm.tm_utcoff := by
  unfold leapClamp
  split_ifs <;> refine ⟨rfl, rfl, rfl, rfl, rfl, rfl⟩

/-- On a fully valid, clamped input the assembler produces exactly the single
timestamp with the broken-down offset attached. -/
theorem assemble_of_valid (tm : Tm) (y m d hh mi ss nano off : Int)
    (h1 : tm.tm_year = y - 1900) (h2 : tm.tm_mon = m - 1) (h3 : tm.tm_mday = d)
    (h4 : tm.tm_hour = hh) (h5 : tm.tm_min = mi) (h6 : tm.tm_sec = ss) (h7 : tm.tm_nsec = nano)
    (h8 : tm.tm_utcoff = off)
    (hv : DateOk y m d) (ht : TimeOk hh mi ss nano) (hoff : -86400 < off ∧ off < 86400) :
    tm_to_datetime tm = some (LocalResult.Single
      { secs := daysOfCivil y m d * 86400 + hh * 3600 + mi * 60 + ss - off,
        nano := nano, offset := off }) := by
  obtain ⟨hvy1, hvy2, hvm1, hvm2, hvd1, hvd2⟩ := hv
  obtain ⟨hth0, hth1, htm0, htm1, hts0, hts1, htn0, htn1⟩ := ht
  have hd31 : d ≤ 31 := (dim_facts y m d hvd2).2.2
  unfold tm_to_datetime
  rw [show leapClamp tm = tm by unfold leapClamp; rw [if_neg (by omega : ¬ (60 ≤ tm.tm_sec))]]
  unfold assembleClamped
  have e1 : tm.tm_year + 1900 = y := by omega
  have e2 : toU32 tm.tm_mon + 1 = m := by unfold toU32; omega
  have e3 : toU32 tm.tm_mday = d := by unfold toU32; omega
  have e4 : toU32 tm.tm_hour = hh := by unfold toU32; omega
  have e5 : toU32 tm.tm_min = mi := by unfold toU32; omega
  have e6 : toU32 tm.tm_sec = ss := by unfold toU32; omega
  have e7 : toU32 tm.tm_nsec = nano := by unfold toU32; omega
  rw [e1, e2, e3, e4, e5, e6, e7, h8]
  rw [if_pos ⟨hvy1, hvy2, hvm1, hvm2, hvd1, hvd2⟩,
      if_pos ⟨hth0, hth1, htm0, htm1, hts0, hts1, htn0, htn1⟩,
      if_pos hoff]

/-! ## Evaluating the resolve pipeline on valid inputs -/

theorem resolve_sys (d : NaiveDT) (loc : Bool) (hv : NaiveOk d)
    (hy : 1900 ≤ d.year ∧ d.year ≤ 30000) :
    tm_to_system_time (resolveTm d loc) =
      { wYear := d.year, wMonth := d.month, wDayOfWeek := 0, wDay := d.day,
        wHour := d.hour, wMinute := d.minute, wSecond := d.second, wMilliseconds := 0 } := by
  obtain ⟨⟨hy1, hy2, hm1, hm2, hd1, hd2⟩, hh0, hh1, hmi0, hmi1, hs0, hs1, hn0, hn1⟩ := hv
  have hd31 : d.day ≤ 31 := (dim_facts d.year d.month d.day hd2).2.2
  simp only [tm_to_system_time, resolveTm, NaiveDT.month0, toU16, SYSTEMTIME.mk.injEq]
  refine ⟨?_, ?_, ?_, ?_, ?_, ?_, ?_, ?_⟩ <;> first | trivial | omega

theorem localTm_eval (hz : HostZone) (V : NaiveDT) (sec : Int) (tmIn : Tm)
    (hv : NaiveOk V) (hy : 1900 ≤ V.year ∧ V.year ≤ 30000)
    (hoff : -86400 < hz.offSecs ∧ hz.offSecs < 86400)
    (hsec : sec = daysOfCivil V.year V.month V.day * 86400
                    + V.hour * 3600 + V.minute * 60 + V.second - hz.offSecs) :
    (time_to_local_tm hz sec tmIn).tm_sec = V.second ∧
    (time_to_local_tm hz sec tmIn).tm_min = V.minute ∧
    (time_to_local_tm hz sec tmIn).tm_hour = V.hour ∧
    (time_to_local_tm hz sec tmIn).tm_mday = V.day ∧
    (time_to_local_tm hz sec tmIn).tm_mon = V.month - 1 ∧
    (time_to_local_tm hz sec tmIn).tm_year = V.year - 1900 ∧
    (time_to_local_tm hz sec tmIn).tm_utcoff = hz.offSecs ∧
    (time_to_local_tm hz sec tmIn).tm_nsec = tmIn.tm_nsec := by
  obtain ⟨⟨hy1, hy2, hm1, hm2, hd1, hd2⟩, hh0, hh1, hmi0, hmi1, hs0, hs1, hn0, hn1⟩ := hv
  have hd31' : V.day ≤ 31 := (dim_facts V.year V.month V.day hd2).2.2
  have hrange := daysOfCivil_range V.year V.month V.day ⟨hy.1, hy.2⟩ ⟨hm1, hm2⟩ ⟨hd1, hd31'⟩
  have hfs : FileTimeToSystemTimeW (time_to_file_time sec) = secsToSys sec := by
    unfold FileTimeToSystemTimeW
    rw [bridge_exact sec (by omega) (by omega)]
  have hls : localSys hz sec =
      secsToSys (daysOfCivil V.year V.month V.day * 86400
                  + V.hour * 3600 + V.minute * 60 + V.second) := by
    unfold localSys SystemTimeToTzSpecificLocalTimeW
    rw [hfs, sysToSecs_secsToSys]
    congr 1
    omega
  obtain ⟨f1, f2, f3, f4, f5, f6, f7⟩ :=
    secsToSys_fields V.year V.month V.day V.hour V.minute V.second
      (daysOfCivil V.year V.month V.day * 86400 + V.hour * 3600 + V.minute * 60 + V.second)
      hm1 hm2 hd1 hd2 ⟨hh0, hh1⟩ ⟨hmi0, hmi1⟩ ⟨hs0, hs1⟩ rfl
  have hlsec : localSec hz sec =
      daysOfCivil V.year V.month V.day * 86400
        + V.hour * 3600 + V.minute * 60 + V.second := by
    unfold localSec system_time_to_file_time SystemTimeToFileTimeW
    rw [hls, sysToSecs_secsToSys]
    exact bridge_exact _ (by omega) (by omega)
  refine ⟨?_, ?_, ?_, ?_, ?_, ?_, ?_, ?_⟩ <;>
    simp only [time_to_local_tm, system_time_to_tm, hls, hlsec, f1, f2, f3, f4, f5, f6] <;>
    first
    | rfl
    | (simp only [toU16, toI32]; omega)

theorem resolveSec_eval (hz : HostZone) (V : NaiveDT)
    (hv : NaiveOk V) (hy : 1900 ≤ V.year ∧ V.year ≤ 30000)
    (hoff : -86400 < hz.offSecs ∧ hz.offSecs < 86400) :
    (resolveSpec hz V true).sec =
      daysOfCivil V.year V.month V.day * 86400
        + V.hour * 3600 + V.minute * 60 + V.second - hz.offSecs := by
  obtain ⟨⟨hy1, hy2, hm1, hm2, hd1, hd2⟩, hh0, hh1, hmi0, hmi1, hs0, hs1, hn0, hn1⟩ := hv
  have hd31' : V.day ≤ 31 := (dim_facts V.year V.month V.day hd2).2.2
  have hrange := daysOfCivil_range V.year V.month V.day hy ⟨hm1, hm2⟩ ⟨hd1, hd31'⟩
  show local_tm_to_time hz (resolveTm V true) = _
  unfold local_tm_to_time TzSpecificLocalTimeToSystemTimeW SystemTimeToFileTimeW
  rw [resolve_sys V true ⟨⟨hy1, hy2, hm1, hm2, hd1, hd2⟩, hh0, hh1, hmi0, hmi1, hs0, hs1, hn0, hn1⟩ hy]
  rw [sysToSecs_secsToSys]
  simp only [sysToSecs]
  exact bridge_exact _ (by omega) (by omega)

theorem checkpoint_fields (hz : HostZone) (V : NaiveDT)
    (hv : NaiveOk V) (hy : 1900 ≤ V.year ∧ V.year ≤ 30000)
    (hoff : -86400 < hz.offSecs ∧ hz.offSecs < 86400) :
    (checkpointTm hz V true).tm_sec = V.second ∧
    (checkpointTm hz V true).tm_min = V.minute ∧
    (checkpointTm hz V true).tm_hour = V.hour ∧
    (checkpointTm hz V true).tm_mday = V.day ∧
    (checkpointTm hz V true).tm_mon = V.month - 1 ∧
    (checkpointTm hz V true).tm_year = V.year - 1900 ∧
    (checkpointTm hz V true).tm_utcoff = hz.offSecs ∧
    (checkpointTm hz V true).tm_nsec = 0 := by
  have hsec := resolveSec_eval hz V hv hy hoff
  have h := localTm_eval hz V (resolveSpec hz V true).sec
    ⟨0, 0, 0, 0, 0, 0, 0, 0, 0, 0, 0⟩ hv hy hoff hsec
  exact ⟨h.1, h.2.1, h.2.2.1, h.2.2.2.1, h.2.2.2.2.1, h.2.2.2.2.2.1, h.2.2.2.2.2.2.1, rfl⟩

/-- Full evaluation of `naive_to_local` in the local interpretation on a
valid in-range input. -/
theorem naive_to_local_eval (hz : HostZone) (V : NaiveDT)
    (hv : NaiveOk V) (hy : 1900 ≤ V.year ∧ V.year ≤ 30000)
    (hoff : -86400 < hz.offSecs ∧ hz.offSecs < 86400) :
    naive_to_local hz V true = some (LocalResult.Single
      { secs := daysOfCivil V.year V.month V.day * 86400
                  + V.hour * 3600 + V.minute * 60 + V.second - hz.offSecs,
        nano := V.nanosecond, offset := hz.offSecs }) := by
  obtain ⟨hsec, hmin, hhour, hday, hmon, hyear, hutc, hnsec⟩ :=
    checkpoint_fields hz V hv hy hoff
  unfold naive_to_local
  rw [if_pos hnsec]
  exact assemble_of_valid _ V.year V.month V.day V.hour V.minute V.second V.nanosecond
    hz.offSecs hyear hmon hday hhour hmin hsec rfl hutc hv.1 hv.2 hoff

/-! # Claims -/

/-- Helper: the only outcomes of the assembler are a panic (`none`), the
no-matching-instant result, or a single instant. -/
theorem tm_to_datetime_cases (tm : Tm) :
    tm_to_datetime tm = Option.none ∨ tm_to_datetime tm = some LocalResult.None ∨
    ∃ dt, tm_to_datetime tm = some (LocalResult.Single dt) := by
  unfold tm_to_datetime assembleClamped
  split_ifs <;>
    first
    | (left; rfl)
    | (right; left; rfl)
    | (right; right; exact ⟨_, rfl⟩)

/-- Helper: the same classification for the resolve operation. -/
theorem naive_to_local_cases (hz : HostZone) (d : NaiveDT) (loc : Bool) :
    naive_to_local hz d loc = Option.none ∨ naive_to_local hz d loc = some LocalResult.None ∨
    ∃ dt, naive_to_local hz d loc = some (LocalResult.Single dt) := by
  unfold naive_to_local
  split_ifs with h
  · exact tm_to_datetime_cases _
  · left; rfl

set_option maxRecDepth 40000 in
/-- C1 (counterexample): the round trip as claimed fails on the code for the
valid naive calendar value 1800-06-01T00:00:00.0 under a zero-offset host:
the `u16` subtraction `wYear - 1900` in `system_time_to_tm` wraps for years
before 1900, so the projected fields do not reproduce V. -/
theorem C1_counterexample :
    NaiveOk ⟨1800, 6, 1, 0, 0, 0, 0⟩ ∧
    -86400 < (HostZone.mk 0 0 0 false).offSecs ∧ (HostZone.mk 0 0 0 false).offSecs < 86400 ∧
    roundTripsB ⟨0, 0, 0, false⟩ ⟨1800, 6, 1, 0, 0, 0, 0⟩ = false := by
  refine ⟨by decide, by decide, by decide, by decide⟩

/-- C1 (amended): for every naive calendar value V with second < 60, a valid
Gregorian date whose year lies in `[1900, 30000]`, and any nanosecond value
valid for a `NaiveDateTime`, under a host whose current total offset is a
valid fixed offset, resolving V with `interpret_as_local = true` and
projecting the resulting timestamp's instant back through the
instant-to-local mapping reproduces all of V's calendar fields exactly,
including the nanosecond field. -/
theorem C1_local_roundtrip (hz : HostZone) (V : NaiveDT)
    (hv : NaiveOk V) (hy : 1900 ≤ V.year ∧ V.year ≤ 30000)
    (hoff : -86400 < hz.offSecs ∧ hz.offSecs < 86400) :
    roundTripsB hz V = true := by
  have hdt := naive_to_local_eval hz V hv hy hoff
  have hfm := localTm_eval hz V
    (daysOfCivil V.year V.month V.day * 86400 + V.hour * 3600 + V.minute * 60 + V.second
      - hz.offSecs) ⟨0, 0, 0, 0, 0, 0, 0, 0, 0, 0, 0⟩ hv hy hoff rfl
  unfold roundTripsB
  rw [hdt]
  simp only [decide_eq_true_eq]
  exact ⟨hfm.2.2.2.2.2.1, hfm.2.2.2.2.1, hfm.2.2.2.1, hfm.2.2.1, hfm.2.1, hfm.1, rfl⟩

/-- C1 (witness): the round trip holds for 2023-06-01T12:30:45.123456789 in
a zone five hours west of UTC. -/
theorem C1_local_roundtrip_witness :
    NaiveOk ⟨2023, 6, 1, 12, 30, 45, 123456789⟩ ∧
    roundTripsB ⟨300, 0, 0, false⟩ ⟨2023, 6, 1, 12, 30, 45, 123456789⟩ = true :=
  ⟨by decide, C1_local_roundtrip ⟨300, 0, 0, false⟩ ⟨2023, 6, 1, 12, 30, 45, 123456789⟩
    (by decide) (by decide) (by decide)⟩

/-- C2: for every `Tm` with second ≥ 60 the assembler's leap-second clamp
adds `(second - 59) * 1e9` to the nanosecond field and sets second to 59;
after the clamp second ≤ 59 always holds, and the clamp happens before any
validation. -/
theorem C2_leap_second_clamp (tm : Tm) :
    (60 ≤ tm.tm_sec → leapClamp tm =
      { tm with tm_sec := 59, tm_nsec := tm.tm_nsec + (tm.tm_sec - 59) * 1000000000 }) ∧
    (leapClamp tm).tm_sec ≤ 59 ∧
    tm_to_datetime tm = assembleClamped (leapClamp tm) := by
  refine ⟨fun h => ?_, ?_, rfl⟩
  · unfold leapClamp
    rw [if_pos h]
  · unfold leapClamp
    split_ifs with h
    · show (59 : Int) ≤ 59
      omega
    · show tm.tm_sec ≤ 59
      omega

/-- C2 (witness): a crafted input with second = 60 and nanosecond = 0 clamps
to second = 59 and nanosecond = 1000000000. -/
theorem C2_leap_second_clamp_witness :
    leapClamp ⟨60, 0, 0, 1, 0, 123, 0, 0, 0, 0, 0⟩ = ⟨59, 0, 0, 1, 0, 123, 0, 0, 0, 0, 1000000000⟩ ∧
    (leapClamp ⟨60, 0, 0, 1, 0, 123, 0, 0, 0, 0, 0⟩).tm_sec ≤ 59 := by
  have h := C2_leap_second_clamp ⟨60, 0, 0, 1, 0, 123, 0, 0, 0, 0, 0⟩
  exact ⟨(h.1 (by decide)).trans (by decide), h.2.1⟩

set_option maxRecDepth 40000 in
/-- C3 (counterexample): for the input second count -2^62 under a zero-bias
host, the `as i32` cast wraps, so the stored UTC-offset field is not exactly
the round-trip difference `local_sec - sec`. -/
theorem C3_counterexample :
    (time_to_local_tm ⟨0, 0, 0, false⟩ (-4611686018427387904) ⟨0, 0, 0, 0, 0, 0, 0, 0, 0, 0, 0⟩).tm_utcoff ≠
      localSec ⟨0, 0, 0, false⟩ (-4611686018427387904) - (-4611686018427387904) := by
  decide

set_option maxRecDepth 40000 in
/-- C3 (amended): `time_to_local_tm` stores as the UTC-offset field the
round-trip difference `local_sec - sec` reduced through the `as i32` cast
(exactly the difference whenever it fits in `i32`), and the DST flag is 0
exactly when the stored offset equals `-60 * (Bias + StandardBias)` and 1
exactly otherwise. -/
theorem C3_offset_and_dst_flag (hz : HostZone) (sec : Int) (tm : Tm) :
    (time_to_local_tm hz sec tm).tm_utcoff = toI32 (localSec hz sec - sec) ∧
    ((time_to_local_tm hz sec tm).tm_isdst =
      if (time_to_local_tm hz sec tm).tm_utcoff = -60 * (hz.Bias + hz.StandardBias) then 0 else 1) ∧
    (toI32 (localSec hz sec - sec) = localSec hz sec - sec →
      (time_to_local_tm hz sec tm).tm_utcoff = localSec hz sec - sec) := by
  have h1 : (time_to_local_tm hz sec tm).tm_utcoff = toI32 (localSec hz sec - sec) := rfl
  have h2 : (time_to_local_tm hz sec tm).tm_isdst =
      if toI32 (localSec hz sec - sec) = -60 * (hz.Bias + hz.StandardBias) then 0 else 1 := rfl
  refine ⟨h1, ?_, fun h => h1.trans h⟩
  rw [h2, h1]

set_option maxRecDepth 40000 in
/-- C3 (witness): at the Unix epoch under a zone five hours west, the
difference fits in `i32` and the stored offset is exactly `-18000`. -/
theorem C3_offset_and_dst_flag_witness :
    (time_to_local_tm ⟨300, 0, 0, false⟩ 0 ⟨0, 0, 0, 0, 0, 0, 0, 0, 0, 0, 0⟩).tm_utcoff =
      localSec ⟨300, 0, 0, false⟩ 0 - 0 := by
  exact (C3_offset_and_dst_flag ⟨300, 0, 0, false⟩ 0 ⟨0, 0, 0, 0, 0, 0, 0, 0, 0, 0, 0⟩).2.2
    (by decide)

/-- C4: on every input the assembler and the resolve operation produce a
panic (`none`), the no-matching-instant outcome, or a single matching
instant; in particular the more-than-one-matching-instant outcome
(`LocalResult.Ambiguous`) is never constructed, even for wall-clock readings
in a repeated hour. -/
theorem C4_never_ambiguous :
    (∀ tm : Tm, tm_to_datetime tm = Option.none ∨
      tm_to_datetime tm = some LocalResult.None ∨
      ∃ dt, tm_to_datetime tm = some (LocalResult.Single dt)) ∧
    (∀ (hz : HostZone) (d : NaiveDT) (loc : Bool), naive_to_local hz d loc = Option.none ∨
      naive_to_local hz d loc = some LocalResult.None ∨
      ∃ dt, naive_to_local hz d loc = some (LocalResult.Single dt)) :=
  ⟨tm_to_datetime_cases, naive_to_local_cases⟩

/-- C5 (counterexample): a `BrokenDownTime` whose time-of-day fields fail
validation (hour = 24) but whose date is also invalid (2023-02-30) makes the
assembler panic (`none`) instead of returning `LocalResult.None`, so the
claim's universal statement fails as written. -/
theorem C5_counterexample :
    ¬ TimeOk (toU32 (24 : Int)) (toU32 (0 : Int)) (toU32 (0 : Int)) (toU32 (0 : Int)) ∧
    tm_to_datetime ⟨0, 0, 24, 30, 1, 123, 0, 0, 0, 0, 0⟩ = Option.none ∧
    tm_to_datetime ⟨0, 0, 24, 30, 1, 123, 0, 0, 0, 0, 0⟩ ≠ some LocalResult.None := by
  refine ⟨by decide, by decide, by decide⟩

/-- C5 (amended): for every `BrokenDownTime` with a valid date, the assembler
returns `LocalResult.None` exactly when the (clamped) time-of-day fields fail
validation; when they pass and the offset is in range it returns a single
instant. -/
theorem C5_time_of_day_validation (tm : Tm)
    (hd : DateOk (tm.tm_year + 1900) (toU32 tm.tm_mon + 1) (toU32 tm.tm_mday)) :
    (tm_to_datetime tm = some LocalResult.None ↔
      ¬ TimeOk (toU32 (leapClamp tm).tm_hour) (toU32 (leapClamp tm).tm_min)
        (toU32 (leapClamp tm).tm_sec) (toU32 (leapClamp tm).tm_nsec)) ∧
    (TimeOk (toU32 (leapClamp tm).tm_hour) (toU32 (leapClamp tm).tm_min)
        (toU32 (leapClamp tm).tm_sec) (toU32 (leapClamp tm).tm_nsec) →
      (-86400 < tm.tm_utcoff ∧ tm.tm_utcoff < 86400) →
      ∃ dt, tm_to_datetime tm = some (LocalResult.Single dt)) := by
  obtain ⟨i1, i2, i3, i4, i5, i6⟩ := leapClamp_inv tm
  unfold tm_to_datetime assembleClamped
  rw [i1, i2, i3, i6]
  rw [if_pos hd]
  constructor
  · split_ifs with ht hoff2 <;> simp [ht]
  · intro ht hoff2
    rw [if_pos ht, if_pos hoff2]
    exact ⟨_, rfl⟩

/-- C5 (witness): a valid date (2023-03-15) with hour = 24 yields
`LocalResult.None`. -/
theorem C5_time_of_day_validation_witness :
    DateOk ((123 : Int) + 1900) (toU32 (2 : Int) + 1) (toU32 (15 : Int)) ∧
    tm_to_datetime ⟨0, 0, 24, 15, 2, 123, 0, 0, 0, 0, 0⟩ = some LocalResult.None := by
  refine ⟨by decide, ?_⟩
  have h := C5_time_of_day_validation ⟨0, 0, 24, 15, 2, 123, 0, 0, 0, 0, 0⟩ (by decide)
  exact h.1.mpr (by decide)

/-- C6 (counterexample): a `BrokenDownTime` denoting 2023-02-30 makes the
assembler panic on the `from_ymd_opt(..).unwrap()` (modelled `none`), which
is not the no-matching-instant outcome the claim promises. -/
theorem C6_counterexample :
    tm_to_datetime ⟨0, 0, 0, 30, 1, 123, 0, 0, 0, 0, 0⟩ = Option.none ∧
    tm_to_datetime ⟨0, 0, 0, 30, 1, 123, 0, 0, 0, 0, 0⟩ ≠ some LocalResult.None := by
  refine ⟨by decide, by decide⟩

/-- C6 (amended): a `BrokenDownTime` denoting an invalid Gregorian date makes
the assembler abort via `unwrap` (modelled `none`); it never returns any
`LocalResult`, in particular never a fabricated date and never
`LocalResult.None`. -/
theorem C6_invalid_date_aborts (tm : Tm)
    (hd : ¬ DateOk (tm.tm_year + 1900) (toU32 tm.tm_mon + 1) (toU32 tm.tm_mday)) :
    tm_to_datetime tm = Option.none := by
  obtain ⟨i1, i2, i3, i4, i5, i6⟩ := leapClamp_inv tm
  unfold tm_to_datetime assembleClamped
  rw [i1, i2, i3]
  rw [if_neg hd]

/-- C6 (witness): the assembler aborts on 2023-02-30. -/
theorem C6_invalid_date_aborts_witness :
    ¬ DateOk ((123 : Int) + 1900) (toU32 (1 : Int) + 1) (toU32 (30 : Int)) ∧
    tm_to_datetime ⟨59, 59, 23, 30, 1, 123, 0, 0, 0, 0, 0⟩ = Option.none :=
  ⟨by decide, C6_invalid_date_aborts ⟨59, 59, 23, 30, 1, 123, 0, 0, 0, 0, 0⟩ (by decide)⟩

/-- C7: the epoch/granularity bridge is exact over integers: whenever
`sec * 10^7 + 11_644_473_600 * 10^7` does not overflow an `i64` and is
nonnegative, `file_time_to_unix_seconds (time_to_file_time sec) = sec`. -/
theorem C7_epoch_bridge_exact (sec : Int)
    (h0 : 0 ≤ sec * 10000000 + 11644473600 * 10000000)
    (h1 : sec * 10000000 + 11644473600 * 10000000 < 9223372036854775808) :
    file_time_to_unix_seconds (time_to_file_time sec) = sec :=
  bridge_exact sec (by omega) (by omega)

/-- C7 (witness): the Unix-epoch instant 0 round-trips to exactly 0. -/
theorem C7_epoch_bridge_exact_witness :
    file_time_to_unix_seconds (time_to_file_time 0) = 0 :=
  C7_epoch_bridge_exact 0 (by decide) (by decide)

/-- C8 (counterexample): the claim's closed form, reading "a leap year" as a
true Gregorian leap year, disagrees with `yday` at year 200 (civil year 2100,
divisible by 4 but not a leap year), month 3, day 1. -/
theorem C8_counterexample : yday 200 3 1 ≠ ydaySpecForm 200 3 1 := by
  decide

/-- C8 (amended): `yday` computes exactly the closed form
`(month-1)*30 + month/2 + (day-1) - leap_adjustment + july_adjustment` for
every input, where `leap_adjustment` is 1 when `year` (years since 1900) is
divisible by 4 and the month is past February, 2 past February otherwise,
and 0 up to February, and `july_adjustment` is 1 exactly when `month > 7`. -/
theorem C8_yday_closed_form (year month day : Int) :
    yday year month day = ydayDiv4Form year month day := by
  have hiff : (year % 4 = 0) = (4 ∣ year) :=
    propext ⟨fun h => by omega, fun h => by omega⟩
  unfold yday ydayDiv4Form
  simp only [hiff]

/-- C9: for every input naive calendar value and both interpretations, the
re-projected `Tm` at the post-round-trip checkpoint carries a nanosecond
field of exactly 0, so the `assert_eq!(tm.tm_nsec, 0)` never fails and
`naive_to_local` always proceeds to the assembler with the caller's
nanoseconds restored. -/
theorem C9_checkpoint_nanosecond_zero (hz : HostZone) (d : NaiveDT) (loc : Bool) :
    (checkpointTm hz d loc).tm_nsec = 0 ∧
    naive_to_local hz d loc =
      tm_to_datetime { checkpointTm hz d loc with tm_nsec := d.nanosecond } := by
  refine ⟨rfl, ?_⟩
  unfold naive_to_local
  rw [if_pos (show (checkpointTm hz d loc).tm_nsec = 0 from rfl)]

/-- C10: with a valid date and valid (clamped) time of day, the assembler
aborts via the `FixedOffset::east_opt(..).unwrap()` (modelled `none`) exactly
when the UTC-offset field lies outside `(-86400, 86400)`; when the offset is
in that range it returns a single instant carrying exactly that offset. -/
theorem C10_offset_unwrap (tm : Tm)
    (hd : DateOk (tm.tm_year + 1900) (toU32 tm.tm_mon + 1) (toU32 tm.tm_mday))
    (ht : TimeOk (toU32 (leapClamp tm).tm_hour) (toU32 (leapClamp tm).tm_min)
      (toU32 (leapClamp tm).tm_sec) (toU32 (leapClamp tm).tm_nsec)) :
    (tm_to_datetime tm = Option.none ↔ ¬ (-86400 < tm.tm_utcoff ∧ tm.tm_utcoff < 86400)) ∧
    ((-86400 < tm.tm_utcoff ∧ tm.tm_utcoff < 86400) →
      ∃ dt, tm_to_datetime tm = some (LocalResult.Single dt) ∧ dt.offset = tm.tm_utcoff) := by
  obtain ⟨i1, i2, i3, i4, i5, i6⟩ := leapClamp_inv tm
  unfold tm_to_datetime assembleClamped
  rw [i1, i2, i3, i6]
  rw [if_pos hd, if_pos ht]
  constructor
  · split_ifs with hoff2 <;> simp [hoff2]
  · intro hoff2
    rw [if_pos hoff2]
    exact ⟨_, rfl, rfl⟩

/-- C10 (witness): with the valid instant 2023-03-15T06:07:08 and an
out-of-range offset field of 100000 seconds the assembler aborts. -/
theorem C10_offset_unwrap_witness :
    DateOk ((123 : Int) + 1900) (toU32 (2 : Int) + 1) (toU32 (15 : Int)) ∧
    TimeOk (toU32 (6 : Int)) (toU32 (7 : Int)) (toU32 (8 : Int)) (toU32 (0 : Int)) ∧
    tm_to_datetime ⟨8, 7, 6, 15, 2, 123, 0, 0, 0, 100000, 0⟩ = Option.none := by
  refine ⟨by decide, by decide, ?_⟩
  have h := C10_offset_unwrap ⟨8, 7, 6, 15, 2, 123, 0, 0, 0, 100000, 0⟩ (by decide) (by decide)
  exact h.1.mpr (by decide)
